import Mathlib

/-
Verification development for the personif.ai backend services.

The definitions below are shallow embeddings of the Python services:
  * `ChunkingState` / `add_audio_data` / `try_create_chunk` embed
    `backend/services/audio_chunking_service.py`;
  * `TranscriptState` / `on_begin` / `on_turn` embed
    `backend/services/transcript_service.py`;
  * `SpeakerState` / `enroll_user_voice` embeds the enrollment path of
    `backend/services/speaker_service.py`.
Sample values are modelled as integers: the services only move samples
around, they never do arithmetic on them.  Fallible external effects
(the embedding extractor, `np.save`, the response HTTP call) are made
explicit as parameters or collected outputs.
-/

/-- State of `AudioChunkingService`: the three configured sizes in samples
(`chunk_size_samples`, `overlap_samples`, `max_buffer_samples` as computed in
`__init__`), the running flag, the sample buffer and the bounded chunk queue. -/
structure ChunkingState where
  chunk_size_samples : Nat
  overlap_samples : Nat
  max_buffer_samples : Nat
  is_running : Bool
  audio_buffer : List Int
  chunk_queue : List (List Int)
  deriving DecidableEq

/-- The enqueue step of `_try_create_chunk`: `put_nowait` into the queue of
capacity 50 (`queue.Queue(maxsize=50)` in `__init__`); on a full queue the
oldest entry is removed with `get_nowait` and the new chunk is enqueued. -/
def putChunk (q : List (List Int)) (c : List Int) : List (List Int) :=
  if q.length < 50 then q ++ [c] else q.drop 1 ++ [c]

/-- `AudioChunkingService._try_create_chunk`: when at least
`chunk_size_samples` samples are buffered, copy the first
`chunk_size_samples` of them as the chunk data, drop
`chunk_size_samples - overlap_samples` samples from the front of the buffer,
and enqueue the chunk. -/
def try_create_chunk (st : ChunkingState) : ChunkingState × Option (List Int) :=
  if st.audio_buffer.length < st.chunk_size_samples then (st, none)
  else
    ({ st with
        audio_buffer := st.audio_buffer.drop (st.chunk_size_samples - st.overlap_samples),
        chunk_queue := putChunk st.chunk_queue (st.audio_buffer.take st.chunk_size_samples) },
      some (st.audio_buffer.take st.chunk_size_samples))

/-- `AudioChunkingService.add_audio_data`: a no-op when the service is not
running; otherwise concatenate the new (mono, float32) samples onto the
buffer, trim the excess from the front when the buffer exceeds
`max_buffer_samples`, and attempt a single chunk extraction. -/
def add_audio_data (st : ChunkingState) (data : List Int) :
    ChunkingState × Option (List Int) :=
  if st.is_running = false then (st, none)
  else
    let buf1 := st.audio_buffer ++ data
    let buf2 := if st.max_buffer_samples < buf1.length
        then buf1.drop (buf1.length - st.max_buffer_samples) else buf1
    let st1 := { st with audio_buffer := buf2 }
    if st.chunk_size_samples ≤ buf2.length then try_create_chunk st1 else (st1, none)

/-- Run a sequence of `add_audio_data` calls, collecting the emitted chunks
in order. -/
def runChunks (st : ChunkingState) : List (List Int) → ChunkingState × List (List Int)
  | [] => (st, [])
  | d :: ds =>
    let r := add_audio_data st d
    let rest := runChunks r.1 ds
    (rest.1, r.2.toList ++ rest.2)

/-- The run never triggers the front trim: at every step the buffered samples
plus the newly appended data stay within `max_buffer_samples`. -/
def noTrimRun : ChunkingState → List (List Int) → Bool
  | _, [] => true
  | st, d :: ds =>
    decide (st.audio_buffer.length + d.length ≤ st.max_buffer_samples) &&
      noTrimRun (add_audio_data st d).1 ds

/-- Two consecutive chunks of nominal size `k` overlap by exactly `ov`
samples: the second chunk starts with the last `ov` samples of the first. -/
def chunkRel (k ov : Nat) (c₁ c₂ : List Int) : Prop :=
  c₂.take ov = c₁.drop (k - ov)

instance (k ov : Nat) (c₁ c₂ : List Int) : Decidable (chunkRel k ov c₁ c₂) :=
  inferInstanceAs (Decidable (c₂.take ov = c₁.drop (k - ov)))

/-- A stopped chunking service with a few buffered samples. -/
def offChunkState : ChunkingState :=
  { chunk_size_samples := 3, overlap_samples := 1, max_buffer_samples := 4,
    is_running := false, audio_buffer := [5, 6], chunk_queue := [[7]] }

/-- A running chunking service configured with a 3-sample chunk, 1-sample
overlap, and a 4-sample buffer cap (for instance `chunk_duration_seconds = 3.0`,
`overlap_seconds = 1.0`, `max_buffer_seconds = 4.0`, `sample_rate = 1`). -/
def c4RunState : ChunkingState :=
  { chunk_size_samples := 3, overlap_samples := 1, max_buffer_samples := 4,
    is_running := true, audio_buffer := [], chunk_queue := [] }

/-- A running chunking service whose buffer cap is never reached by the
witness runs. -/
def c4WitState : ChunkingState :=
  { chunk_size_samples := 3, overlap_samples := 1, max_buffer_samples := 100,
    is_running := true, audio_buffer := [], chunk_queue := [] }

/-- A minimal JSON value model, enough to state the shape of the persisted
transcription file. -/
inductive JsonVal where
  | str (s : String)
  | arr (items : List JsonVal)
  | obj (fields : List (String × JsonVal))

/-- Whether a JSON value is an array. -/
def JsonVal.isArr : JsonVal → Bool
  | .arr _ => true
  | _ => false

/-- The two-key speaker dictionary used for `_transcription_data` and
`_finalized_text` (keys `you` and `other`). -/
structure SpeakerMap where
  you : String
  other : String
  deriving DecidableEq

/-- Dictionary lookup `m[s]`; the service only ever indexes with the current
speaker, which is one of the two keys. -/
def SpeakerMap.get (m : SpeakerMap) (s : String) : String :=
  if s = "you" then m.you else m.other

/-- Dictionary assignment `m[s] = v`. -/
def SpeakerMap.set (m : SpeakerMap) (s v : String) : SpeakerMap :=
  if s = "you" then { m with you := v } else { m with other := v }

/-- A transcript turn event as delivered by the recognizer (fields `transcript`
and `end_of_turn` of the streaming `TurnEvent`). -/
structure TurnEvent where
  transcript : String
  end_of_turn : Bool
  deriving DecidableEq

/-- The Python idiom `prev + " " + text if prev else text`, used both for
`_complete_transcript` and for the finalized speaker texts. -/
def joinText (prev text : String) : String :=
  if prev ≠ "" then prev ++ " " ++ text else text

/-- Python's `str.strip()`: remove leading and trailing whitespace. -/
def pyStrip (s : String) : String :=
  String.mk (((s.data.dropWhile Char.isWhitespace).reverse.dropWhile
    Char.isWhitespace).reverse)

/-- State of `TranscriptService`, together with the `last_speaker_was_user`
flag of the global `SpeakerService` that `_get_actual_speaker` and
`_handle_end_of_turn` consult (it is `None` at construction and is written
only by `SpeakerService.is_user_speaking`, never by the transcript service).
`persisted_file` mirrors the JSON value last written to `json_output_path`;
`transcript_history` keeps `(transcript, is_end_of_turn)` per event. -/
structure TranscriptState where
  current_transcript : String
  complete_transcript : String
  transcript_history : List (String × Bool)
  session_id : Option String
  is_active : Bool
  current_speaker : String
  transcription_data : SpeakerMap
  finalized_text : SpeakerMap
  skip_next_other_update : Bool
  persisted_file : JsonVal
  last_speaker_was_user : Option Bool

/-- `TranscriptService._write_json_file`: overwrite the persisted file
wholesale with the JSON object holding the two speaker texts. -/
def write_json_file (st : TranscriptState) : TranscriptState :=
  { st with persisted_file :=
      JsonVal.obj [("you", JsonVal.str st.transcription_data.you),
                   ("other", JsonVal.str st.transcription_data.other)] }

/-- `TranscriptService._get_actual_speaker`: the speaker according to the last
classification, falling back to the stored current speaker when no
classification has completed. -/
def get_actual_speaker (st : TranscriptState) : String :=
  match st.last_speaker_was_user with
  | none => st.current_speaker
  | some u => if u then "you" else "other"

/-- `TranscriptService._update_transcription`: honour the one-shot skip flag,
update the current speaker from recognition, then either refresh the live view
(partial event) or append to the finalized text (end of turn), and rewrite the
JSON file (the skip branch returns without writing). -/
def update_transcription (st : TranscriptState) (text : String)
    (is_end_of_turn : Bool) : TranscriptState :=
  let actual := get_actual_speaker st
  if st.skip_next_other_update = true ∧ actual = "other" then
    let st1 := { st with skip_next_other_update := false }
    if is_end_of_turn then { st1 with current_speaker := actual } else st1
  else
    let st1 := { st with current_speaker := actual }
    if is_end_of_turn = false then
      let disp := joinText (st1.finalized_text.get actual) text
      write_json_file
        { st1 with transcription_data := st1.transcription_data.set actual disp }
    else
      let fin := joinText (st1.finalized_text.get actual) text
      write_json_file
        { st1 with finalized_text := st1.finalized_text.set actual fin,
                   transcription_data := st1.transcription_data.set actual fin }

/-- `TranscriptService._clear_current_transcript`, run right after a response
trigger: blank both OTHER texts, arm the skip flag, rewrite the file. -/
def clear_current_transcript (st : TranscriptState) : TranscriptState :=
  write_json_file
    { st with transcription_data := st.transcription_data.set "other" "",
              finalized_text := st.finalized_text.set "other" "",
              skip_next_other_update := true }

/-- `TranscriptService._handle_end_of_turn`: no classification data means an
early return; otherwise the response trigger fires exactly when the
recognised speaker was not the user and the transcript is non-empty after
stripping whitespace.  The returned list holds the transcripts passed to
`_make_api_call_with_transcript`. -/
def handle_end_of_turn (st : TranscriptState) (transcript_text : String) :
    TranscriptState × List String :=
  match st.last_speaker_was_user with
  | none => (st, [])
  | some last_was_user =>
    if last_was_user = false ∧ pyStrip transcript_text ≠ "" then
      (clear_current_transcript st, [transcript_text])
    else (st, [])

/-- `TranscriptService.on_turn`: record the event in the history, refresh the
current transcript, on end of turn run `_handle_end_of_turn` before the
speaker can switch and extend the complete transcript, then run
`_update_transcription`. -/
def on_turn (st : TranscriptState) (e : TurnEvent) : TranscriptState × List String :=
  let st1 := { st with
      transcript_history := st.transcript_history ++ [(e.transcript, e.end_of_turn)],
      current_transcript := e.transcript }
  let r :=
    if e.end_of_turn then
      let r0 := handle_end_of_turn st1 e.transcript
      let comp := joinText r0.1.complete_transcript e.transcript
      ({ r0.1 with complete_transcript := comp }, r0.2)
    else (st1, [])
  (update_transcription r.1 e.transcript e.end_of_turn, r.2)

/-- `TranscriptService.on_begin`: activate the session, reset the transcript
views and the history, reset the speaker to the fixed initial label `other`,
clear both speaker dictionaries and persist them. -/
def on_begin (st : TranscriptState) (sid : String) : TranscriptState :=
  write_json_file
    { st with
        session_id := some sid, is_active := true,
        current_transcript := "", complete_transcript := "",
        transcript_history := [],
        current_speaker := "other",
        transcription_data := ⟨"", ""⟩,
        finalized_text := ⟨"", ""⟩ }

/-- `TranscriptService.__init__` (paired with a freshly constructed
`SpeakerService`, whose `last_speaker_was_user` starts as `None`). -/
def initTranscriptState : TranscriptState :=
  write_json_file
    { current_transcript := "", complete_transcript := "",
      transcript_history := [], session_id := none, is_active := false,
      current_speaker := "other",
      transcription_data := ⟨"", ""⟩, finalized_text := ⟨"", ""⟩,
      skip_next_other_update := false,
      persisted_file := JsonVal.obj [],
      last_speaker_was_user := none }

/-- Feed a sequence of turn events, collecting every response-trigger call in
order. -/
def runTurns (st : TranscriptState) : List TurnEvent → TranscriptState × List String
  | [] => (st, [])
  | e :: es =>
    let r := on_turn st e
    let rest := runTurns r.1 es
    (rest.1, r.2 ++ rest.2)

/-- The shape the persisted transcription file always has: a JSON object with
exactly the keys `you` and `other`, both holding strings. -/
def isSpeakerObj (j : JsonVal) : Prop :=
  ∃ a b, j = JsonVal.obj [("you", JsonVal.str a), ("other", JsonVal.str b)]

/-- A transcript state in which the last classification said the speaker was
not the user. -/
def otherSpeakerState : TranscriptState :=
  { initTranscriptState with last_speaker_was_user := some false }

/-- State of `SpeakerService` relevant to enrollment: whether the model
loaded, the in-memory profile, and the profile file on disk. -/
structure SpeakerState where
  model_loaded : Bool
  user_voice_profile : Option (List Int)
  profile_file : Option (List Int)
  deriving DecidableEq

/-- `SpeakerService.enroll_user_voice`, with its two fallible external effects
made explicit: `embed_result` is the extractor outcome (`none` models
`encode_batch` raising) and `save_ok` tells whether `np.save` succeeded.
Mirroring the code, the in-memory profile is assigned before the save is
attempted, and every exception is caught and turned into a `False` return. -/
def enroll_user_voice (st : SpeakerState) (embed_result : Option (List Int))
    (save_ok : Bool) : SpeakerState × Bool :=
  if st.model_loaded = false then (st, false)
  else
    match embed_result with
    | none => (st, false)
    | some emb =>
      if save_ok then
        ({ st with user_voice_profile := some emb, profile_file := some emb }, true)
      else
        ({ st with user_voice_profile := some emb }, false)

/-- A speaker-service state with a loaded model and no enrolled profile. -/
def c8State : SpeakerState :=
  { model_loaded := true, user_voice_profile := none, profile_file := none }

/-- Looking up the key `you`. -/
theorem SpeakerMap.get_you (m : SpeakerMap) : m.get "you" = m.you := by
  simp [SpeakerMap.get]

/-- Looking up the key `other`. -/
theorem SpeakerMap.get_other (m : SpeakerMap) : m.get "other" = m.other := by
  simp [SpeakerMap.get]

/-- Setting the key `other`. -/
theorem SpeakerMap.set_other (m : SpeakerMap) (v : String) :
    m.set "other" v = { m with other := v } := by
  simp [SpeakerMap.set]

/-- The buffer as it stands after the concatenation and front-trim steps of
`add_audio_data`. -/
def trimBuf (st : ChunkingState) (d : List Int) : List Int :=
  if st.max_buffer_samples < (st.audio_buffer ++ d).length
  then (st.audio_buffer ++ d).drop ((st.audio_buffer ++ d).length - st.max_buffer_samples)
  else st.audio_buffer ++ d

/-- `add_audio_data` on a running service: trim, then extract when possible. -/
theorem add_audio_data_run (st : ChunkingState) (d : List Int)
    (hr : st.is_running = true) :
    add_audio_data st d =
      (if st.chunk_size_samples ≤ (trimBuf st d).length
       then try_create_chunk { st with audio_buffer := trimBuf st d }
       else ({ st with audio_buffer := trimBuf st d }, none)) := by
  unfold add_audio_data trimBuf
  rw [hr]
  simp

/-- The trimmed buffer respects the configured bound. -/
theorem trimBuf_length (st : ChunkingState) (d : List Int) :
    (trimBuf st d).length ≤ st.max_buffer_samples := by
  unfold trimBuf
  split
  · simp only [List.length_drop]
    omega
  · omega

/-- Trimming only drops samples from the front. -/
theorem trimBuf_suffix (st : ChunkingState) (d : List Int) :
    List.IsSuffix (trimBuf st d) (st.audio_buffer ++ d) := by
  unfold trimBuf
  split
  · exact List.drop_suffix _ _
  · exact List.suffix_refl _

/-- Chunk extraction only drops samples from the front of the buffer. -/
theorem try_create_chunk_buffer_suffix (s : ChunkingState) :
    List.IsSuffix (try_create_chunk s).1.audio_buffer s.audio_buffer := by
  unfold try_create_chunk
  split
  · exact List.suffix_refl _
  · exact List.drop_suffix _ _

/-- `add_audio_data` on a stopped service returns immediately. -/
theorem add_audio_data_stopped (st : ChunkingState) (d : List Int)
    (h : st.is_running = false) : add_audio_data st d = (st, none) := by
  unfold add_audio_data
  rw [h]
  simp

/-- C10: calling `add_audio_data` while the service is not running (before
`start()` or after `stop()`) leaves the whole state — audio buffer and chunk
queue included — unchanged and emits no chunk. -/
theorem C10_thm (st : ChunkingState) (d : List Int) (h : st.is_running = false) :
    add_audio_data st d = (st, none) :=
  add_audio_data_stopped st d h

/-- Witness for C10 at a concrete stopped state. -/
theorem C10_witness :
    offChunkState.is_running = false ∧
    add_audio_data offChunkState [8, 9] = (offChunkState, none) :=
  ⟨rfl, C10_thm offChunkState [8, 9] rfl⟩

/-- C8 (amended): enrollment with a loaded model returns failure and leaves
both the in-memory profile and the file untouched when the extractor fails;
when the extractor succeeds but persisting fails it returns failure with the
in-memory profile already replaced and the file untouched; on success both
are replaced. -/
theorem C8_thm (st : SpeakerState) (embed_result : Option (List Int))
    (save_ok : Bool) (hm : st.model_loaded = true) :
    enroll_user_voice st embed_result save_ok =
      (match embed_result with
       | none => (st, false)
       | some emb =>
         if save_ok then
           ({ st with user_voice_profile := some emb, profile_file := some emb }, true)
         else
           ({ st with user_voice_profile := some emb }, false)) := by
  unfold enroll_user_voice
  rw [hm]
  simp

/-- Witness for C8 (amended) at a concrete state: extractor succeeds, the
save fails. -/
theorem C8_witness :
    c8State.model_loaded = true ∧
    enroll_user_voice c8State (some [1, 2]) false =
      (match some [1, 2] with
       | none => (c8State, false)
       | some emb =>
         if false then
           ({ c8State with user_voice_profile := some emb, profile_file := some emb }, true)
         else
           ({ c8State with user_voice_profile := some emb }, false)) :=
  ⟨rfl, C8_thm c8State (some [1, 2]) false rfl⟩

/-- C8 counterexample: with a loaded model, a successful extraction followed
by a failed save returns failure yet leaves the in-memory profile updated
while the persisted file is unchanged — partial state, contradicting the
claim that on failure memory and storage either both update or neither
does. -/
theorem C8_cex :
    (enroll_user_voice c8State (some [1, 2]) false).2 = false ∧
    (enroll_user_voice c8State (some [1, 2]) false).1.user_voice_profile ≠
      c8State.user_voice_profile ∧
    (enroll_user_voice c8State (some [1, 2]) false).1.profile_file =
      c8State.profile_file := by
  refine ⟨rfl, by decide, rfl⟩

set_option maxRecDepth 8000 in
/-- C6: the chunk work queue is bounded at 50; enqueuing into a full queue
evicts the oldest queued chunk and enqueues the new one; enqueuing chunks
1 to 51 into an empty queue leaves chunks 2 to 51, in FIFO order. -/
theorem C6_thm (q : List (List Int)) (c : List Int) (h : q.length ≤ 50) :
    (putChunk q c).length ≤ 50 ∧
    (q.length = 50 → putChunk q c = q.drop 1 ++ [c]) ∧
    List.foldl putChunk [] ((List.range 51).map fun i => [(i : Int) + 1]) =
      ((List.range 51).map fun i => [(i : Int) + 1]).drop 1 := by
  refine ⟨?_, ?_, by decide⟩
  · unfold putChunk
    split
    · simp only [List.length_append, List.length_cons, List.length_nil]
      omega
    · simp only [List.length_append, List.length_drop, List.length_cons, List.length_nil]
      omega
  · intro h50
    unfold putChunk
    rw [if_neg (by omega)]

set_option maxRecDepth 8000 in
/-- Witness for C6 at a concrete full queue. -/
theorem C6_witness :
    ((List.range 50).map fun i => [(i : Int)]).length ≤ 50 ∧
    ((putChunk ((List.range 50).map fun i => [(i : Int)]) [99]).length ≤ 50 ∧
      (((List.range 50).map fun i => [(i : Int)]).length = 50 →
        putChunk ((List.range 50).map fun i => [(i : Int)]) [99] =
          ((List.range 50).map fun i => [(i : Int)]).drop 1 ++ [[99]]) ∧
      List.foldl putChunk [] ((List.range 51).map fun i => [(i : Int) + 1]) =
        ((List.range 51).map fun i => [(i : Int) + 1]).drop 1) :=
  ⟨by decide, C6_thm _ [99] (by decide)⟩

/-- C5: after any `add_audio_data` call on a state respecting the buffer
bound, the buffer still holds at most `max_buffer_samples` samples, and on a
running service the resulting buffer is a suffix of the old buffer followed
by the new data: eviction only ever removes the oldest samples. -/
theorem C5_thm (st : ChunkingState) (d : List Int)
    (h : st.audio_buffer.length ≤ st.max_buffer_samples) :
    (add_audio_data st d).1.audio_buffer.length ≤ st.max_buffer_samples ∧
    (st.is_running = true →
      List.IsSuffix (add_audio_data st d).1.audio_buffer (st.audio_buffer ++ d)) := by
  by_cases hr : st.is_running = true
  · rw [add_audio_data_run st d hr]
    split
    · constructor
      · exact le_trans
          (List.IsSuffix.length_le (try_create_chunk_buffer_suffix _))
          (trimBuf_length st d)
      · intro _
        exact (try_create_chunk_buffer_suffix _).trans (trimBuf_suffix st d)
    · exact ⟨trimBuf_length st d, fun _ => trimBuf_suffix st d⟩
  · have hr0 : st.is_running = false := by
      revert hr
      cases st.is_running <;> simp
    rw [add_audio_data_stopped st d hr0]
    exact ⟨h, fun ht => absurd ht (by rw [hr0]; simp)⟩

/-- Witness for C5 at a concrete running state that overflows the cap. -/
theorem C5_witness :
    c4RunState.audio_buffer.length ≤ c4RunState.max_buffer_samples ∧
    ((add_audio_data c4RunState [1, 2, 3, 4, 5]).1.audio_buffer.length ≤
        c4RunState.max_buffer_samples ∧
      (c4RunState.is_running = true →
        List.IsSuffix (add_audio_data c4RunState [1, 2, 3, 4, 5]).1.audio_buffer
          (c4RunState.audio_buffer ++ [1, 2, 3, 4, 5]))) :=
  ⟨by decide, C5_thm c4RunState [1, 2, 3, 4, 5] (by decide)⟩

/-- `add_audio_data` on a running service when the new data does not overflow
the buffer cap: no front-trim happens, so the result is determined by whether
the concatenated buffer reaches `chunk_size_samples`. -/
theorem add_audio_data_noTrim (st : ChunkingState) (d : List Int)
    (hr : st.is_running = true)
    (hnt : st.audio_buffer.length + d.length ≤ st.max_buffer_samples) :
    add_audio_data st d =
      (if st.chunk_size_samples ≤ (st.audio_buffer ++ d).length
       then ({ st with
                audio_buffer := (st.audio_buffer ++ d).drop
                  (st.chunk_size_samples - st.overlap_samples),
                chunk_queue := putChunk st.chunk_queue
                  ((st.audio_buffer ++ d).take st.chunk_size_samples) },
              some ((st.audio_buffer ++ d).take st.chunk_size_samples))
       else ({ st with audio_buffer := st.audio_buffer ++ d }, none)) := by
  have hTrim : trimBuf st d = st.audio_buffer ++ d := by
    unfold trimBuf
    rw [if_neg]
    simp only [List.length_append]
    omega
  rw [add_audio_data_run st d hr, hTrim]
  split
  next hc =>
    simp only [try_create_chunk]
    rw [if_neg (by omega)]
  next hc => rfl

/-- The overlap invariant carried through a trim-free run: the emitted chunks
form a `chunkRel` chain, the retained buffer front reproduces the tail of the
last emitted chunk, and every chunk has the configured size. -/
theorem runChunks_chain_aux (k ov : Nat) (hov : ov ≤ k)
    (datas : List (List Int)) :
    ∀ st : ChunkingState,
      st.chunk_size_samples = k → st.overlap_samples = ov →
      st.is_running = true → noTrimRun st datas = true →
      (List.Chain' (chunkRel k ov) (runChunks st datas).2 ∧
       (∀ c₀ : List Int, ov ≤ st.audio_buffer.length →
          st.audio_buffer.take ov = c₀.drop (k - ov) →
          List.Chain' (chunkRel k ov) (c₀ :: (runChunks st datas).2)) ∧
       (∀ c ∈ (runChunks st datas).2, c.length = k)) := by
  induction datas with
  | nil =>
    intro st _ _ _ _
    exact ⟨by simp [runChunks], fun c₀ _ _ => by simp [runChunks], by simp [runChunks]⟩
  | cons d ds ih =>
    intro st hk ho hr hnt
    have hnt' : (st.audio_buffer.length + d.length ≤ st.max_buffer_samples) ∧
        noTrimRun (add_audio_data st d).1 ds = true := by
      unfold noTrimRun at hnt
      rw [Bool.and_eq_true, decide_eq_true_iff] at hnt
      exact hnt
    have hchar := add_audio_data_noTrim st d hr hnt'.1
    by_cases hc : st.chunk_size_samples ≤ (st.audio_buffer ++ d).length
    · rw [if_pos hc] at hchar
      have hout : (runChunks st (d :: ds)).2 =
          (st.audio_buffer ++ d).take st.chunk_size_samples ::
            (runChunks (add_audio_data st d).1 ds).2 := by
        simp [runChunks, hchar]
      have hnt2 : noTrimRun (add_audio_data st d).1 ds = true := hnt'.2
      obtain ⟨ch, chPrev, lens⟩ :=
        ih (add_audio_data st d).1 (by rw [hchar]; exact hk) (by rw [hchar]; exact ho)
          (by rw [hchar]; exact hr) hnt2
      have hklen : k ≤ (st.audio_buffer ++ d).length := hk ▸ hc
      have hlen : ov ≤ (add_audio_data st d).1.audio_buffer.length := by
        rw [hchar]
        simp only [List.length_drop, hk, ho]
        omega
      have htake : (add_audio_data st d).1.audio_buffer.take ov =
          ((st.audio_buffer ++ d).take st.chunk_size_samples).drop (k - ov) := by
        rw [hchar]
        simp only [hk, ho]
        rw [List.drop_take]
        congr 1
        omega
      have hchain : List.Chain' (chunkRel k ov)
          ((st.audio_buffer ++ d).take st.chunk_size_samples ::
            (runChunks (add_audio_data st d).1 ds).2) :=
        chPrev _ hlen htake
      refine ⟨by rw [hout]; exact hchain, ?_, ?_⟩
      · intro c₀ hl hp
        rw [hout]
        refine List.chain'_cons.mpr ⟨?_, hchain⟩
        show ((st.audio_buffer ++ d).take st.chunk_size_samples).take ov =
          c₀.drop (k - ov)
        rw [List.take_take, hk, Nat.min_eq_left hov,
          List.take_append_of_le_length hl, hp]
      · intro c hmem
        rw [hout] at hmem
        rcases List.mem_cons.mp hmem with hmem | hmem
        · rw [hmem]
          simp only [List.length_take, hk]
          omega
        · exact lens c hmem
    · rw [if_neg hc] at hchar
      have hout : (runChunks st (d :: ds)).2 =
          (runChunks (add_audio_data st d).1 ds).2 := by
        simp [runChunks, hchar]
      obtain ⟨ch, chPrev, lens⟩ :=
        ih (add_audio_data st d).1 (by rw [hchar]; exact hk) (by rw [hchar]; exact ho)
          (by rw [hchar]; exact hr) hnt'.2
      refine ⟨by rw [hout]; exact ch, ?_, by rw [hout]; exact lens⟩
      intro c₀ hl hp
      rw [hout]
      refine chPrev c₀ ?_ ?_
      · rw [hchar]
        simp only [List.length_append]
        omega
      · rw [hchar]
        show (st.audio_buffer ++ d).take ov = c₀.drop (k - ov)
        rw [List.take_append_of_le_length hl, hp]

/-- C4 (amended): on a running service, as long as the buffer cap is never hit
(no front-trim occurs during the run), every pair of consecutive emitted
chunks overlaps by exactly `overlap_samples` samples, and every emitted chunk
has exactly `chunk_size_samples` samples; each `add_audio_data` call emits at
most one chunk by construction. -/
theorem C4_thm (st : ChunkingState) (datas : List (List Int))
    (hr : st.is_running = true)
    (hov : st.overlap_samples ≤ st.chunk_size_samples)
    (hnt : noTrimRun st datas = true) :
    List.Chain' (chunkRel st.chunk_size_samples st.overlap_samples)
      (runChunks st datas).2 ∧
    ∀ c ∈ (runChunks st datas).2, c.length = st.chunk_size_samples := by
  obtain ⟨ch, _, lens⟩ :=
    runChunks_chain_aux st.chunk_size_samples st.overlap_samples hov datas st
      rfl rfl hr hnt
  exact ⟨ch, lens⟩

/-- Witness for C4 (amended) on a concrete trim-free run emitting two
overlapping chunks. -/
theorem C4_witness :
    (c4WitState.is_running = true ∧
      c4WitState.overlap_samples ≤ c4WitState.chunk_size_samples ∧
      noTrimRun c4WitState [[1, 2], [3, 4], [5, 6]] = true) ∧
    (List.Chain' (chunkRel c4WitState.chunk_size_samples c4WitState.overlap_samples)
        (runChunks c4WitState [[1, 2], [3, 4], [5, 6]]).2 ∧
      ∀ c ∈ (runChunks c4WitState [[1, 2], [3, 4], [5, 6]]).2,
        c.length = c4WitState.chunk_size_samples) :=
  ⟨⟨rfl, by decide, by decide⟩,
    C4_thm c4WitState [[1, 2], [3, 4], [5, 6]] rfl (by decide) (by decide)⟩

/-- C4 counterexample: when an append overflows `max_buffer_samples`, the
front-trim discards the retained overlap, so two consecutive emitted chunks
need not overlap at all.  Here (chunk 3, overlap 1, cap 4) the run emits
`[11, 12, 13]` and then `[14, 15, 16]`, whose boundary samples `13` and `14`
differ. -/
theorem C4_cex :
    (runChunks c4RunState [[10, 11, 12, 13, 14], [15, 16, 17]]).2 =
      [[11, 12, 13], [14, 15, 16]] ∧
    c4RunState.chunk_size_samples = 3 ∧
    c4RunState.overlap_samples = 1 ∧
    ¬ chunkRel 3 1 [11, 12, 13] [14, 15, 16] := by
  exact ⟨by decide, rfl, rfl, by decide⟩

/-- Concatenating with a space in the middle never yields the empty string. -/
theorem append_space_ne (a b : String) : a ++ " " ++ b ≠ "" := by
  intro hcontra
  have hlen := congrArg String.length hcontra
  rw [String.length_append, String.length_append] at hlen
  have hone : (" " : String).length = 1 := rfl
  have hz : ("" : String).length = 0 := rfl
  omega

/-- `_handle_end_of_turn` never touches the classification state. -/
theorem handle_end_of_turn_last (st : TranscriptState) (t : String) :
    (handle_end_of_turn st t).1.last_speaker_was_user = st.last_speaker_was_user := by
  unfold handle_end_of_turn
  split
  · rfl
  · split
    · rfl
    · rfl

/-- `_update_transcription` never touches the classification state. -/
theorem update_transcription_last (st : TranscriptState) (t : String) (eot : Bool) :
    (update_transcription st t eot).last_speaker_was_user =
      st.last_speaker_was_user := by
  simp only [update_transcription]
  split
  · split
    · rfl
    · rfl
  · split
    · rfl
    · rfl

/-- `on_turn` never touches the speaker-service classification state. -/
theorem on_turn_last (st : TranscriptState) (e : TurnEvent) :
    (on_turn st e).1.last_speaker_was_user = st.last_speaker_was_user := by
  simp only [on_turn]
  rw [update_transcription_last]
  split
  · rw [handle_end_of_turn_last]
  · rfl

/-- With no classification available, `_handle_end_of_turn` returns without
making the downstream call, so `on_turn` triggers nothing. -/
theorem on_turn_calls_of_none (st : TranscriptState) (e : TurnEvent)
    (h : st.last_speaker_was_user = none) : (on_turn st e).2 = [] := by
  unfold on_turn handle_end_of_turn
  simp [h]
  split <;> rfl

/-- C9: in a run in which no speaker classification has completed (the
last-speaker state is still `none`, its value at construction), no turn event
— end-of-turn or not — ever invokes the response trigger, and the state stays
classification-free. -/
theorem C9_thm (st : TranscriptState) (evs : List TurnEvent)
    (h : st.last_speaker_was_user = none) :
    (runTurns st evs).2 = [] ∧
    (runTurns st evs).1.last_speaker_was_user = none := by
  induction evs generalizing st with
  | nil => exact ⟨rfl, h⟩
  | cons e es ih =>
    have h1 : (on_turn st e).1.last_speaker_was_user = none := by
      rw [on_turn_last]
      exact h
    obtain ⟨hc, hl⟩ := ih (on_turn st e).1 h1
    refine ⟨?_, hl⟩
    show (on_turn st e).2 ++ (runTurns (on_turn st e).1 es).2 = []
    rw [on_turn_calls_of_none st e h, hc]
    rfl

/-- Witness for C9 on the freshly constructed service fed two end-of-turn
events. -/
theorem C9_witness :
    initTranscriptState.last_speaker_was_user = none ∧
    ((runTurns initTranscriptState [⟨"hi", true⟩, ⟨"hi", true⟩]).2 = [] ∧
      (runTurns initTranscriptState
        [⟨"hi", true⟩, ⟨"hi", true⟩]).1.last_speaker_was_user = none) :=
  ⟨rfl, C9_thm initTranscriptState [⟨"hi", true⟩, ⟨"hi", true⟩] rfl⟩

/-- C2 (amended): for an end-of-turn event, the response trigger is invoked
with the turn's text if and only if a speaker classification exists and says
the last speaker was not the user, and the text is non-empty after stripping
whitespace; the current-speaker label about to be superseded plays no role,
and without any classification nothing is triggered. -/
theorem C2_thm (st : TranscriptState) (e : TurnEvent) (he : e.end_of_turn = true) :
    (on_turn st e).2 =
      (if st.last_speaker_was_user = some false ∧ pyStrip e.transcript ≠ ""
       then [e.transcript] else []) := by
  obtain ⟨t, b⟩ := e
  have hb : b = true := he
  subst hb
  unfold on_turn handle_end_of_turn
  cases hl : st.last_speaker_was_user with
  | none => simp [hl]
  | some u =>
    cases u
    · by_cases hs : pyStrip t ≠ ""
      · simp [hl, hs]
      · simp [hl, hs]
    · simp [hl]

/-- Witness for C2 (amended): with a classification saying OTHER and
non-blank text, the trigger fires once with the text. -/
theorem C2_witness :
    (TurnEvent.mk "hey there" true).end_of_turn = true ∧
    (on_turn otherSpeakerState ⟨"hey there", true⟩).2 =
      (if otherSpeakerState.last_speaker_was_user = some false ∧
          pyStrip "hey there" ≠ ""
       then ["hey there"] else []) :=
  ⟨rfl, C2_thm otherSpeakerState ⟨"hey there", true⟩ rfl⟩

/-- C2 counterexample: right after session begin the speaker about to be
superseded is OTHER and the text is non-blank, yet no classification has
completed, so the code makes no downstream call — the claimed iff fails. -/
theorem C2_cex :
    (on_begin initTranscriptState "session-1").current_speaker = "other" ∧
    pyStrip "hello there" ≠ "" ∧
    (on_turn (on_begin initTranscriptState "session-1")
      ⟨"hello there", true⟩).2 = [] := by
  exact ⟨rfl, by decide, by decide⟩

/-- C7 (amended): an end-of-turn event whose text is empty or whitespace-only
never invokes the response trigger, and the current speaker is set to the
classification-derived speaker — unchanged when no classification exists —
rather than being flipped. -/
theorem handle_end_of_turn_blank (st : TranscriptState) (t : String)
    (ht : pyStrip t = "") : handle_end_of_turn st t = (st, []) := by
  unfold handle_end_of_turn
  split
  · rfl
  · rw [if_neg]
    simp [ht]

/-- On an end-of-turn event, `_update_transcription` always lands the current
speaker on the classification-derived label. -/
theorem update_transcription_speaker_eot (st : TranscriptState) (t : String) :
    (update_transcription st t true).current_speaker = get_actual_speaker st := by
  simp only [update_transcription]
  split
  · rfl
  · rfl

/-- `get_actual_speaker` only reads the classification and current-speaker
fields. -/
theorem get_actual_speaker_congr (a b : TranscriptState)
    (h1 : a.last_speaker_was_user = b.last_speaker_was_user)
    (h2 : a.current_speaker = b.current_speaker) :
    get_actual_speaker a = get_actual_speaker b := by
  unfold get_actual_speaker
  rw [h1, h2]

/-- C7 (amended): an end-of-turn event whose text is empty or whitespace-only
never invokes the response trigger, and the current speaker is set to the
classification-derived speaker — unchanged when no classification exists —
rather than being flipped. -/
theorem C7_thm (st : TranscriptState) (e : TurnEvent) (he : e.end_of_turn = true)
    (ht : pyStrip e.transcript = "") :
    (on_turn st e).2 = [] ∧
    (on_turn st e).1.current_speaker = get_actual_speaker st := by
  obtain ⟨t, b⟩ := e
  have hb : b = true := he
  subst hb
  simp only [on_turn]
  rw [if_pos trivial, handle_end_of_turn_blank _ _ ht]
  refine ⟨rfl, ?_⟩
  rw [update_transcription_speaker_eot]
  exact get_actual_speaker_congr _ _ rfl rfl

/-- Witness for C7 (amended) on a whitespace-only end-of-turn event. -/
theorem C7_witness :
    ((TurnEvent.mk "  " true).end_of_turn = true ∧ pyStrip "  " = "") ∧
    ((on_turn initTranscriptState ⟨"  ", true⟩).2 = [] ∧
      (on_turn initTranscriptState ⟨"  ", true⟩).1.current_speaker =
        get_actual_speaker initTranscriptState) :=
  ⟨⟨rfl, by decide⟩, C7_thm initTranscriptState ⟨"  ", true⟩ rfl (by decide)⟩

/-- C7 counterexample: an empty-text end-of-turn event right after session
begin leaves the speaker at OTHER — it is not flipped to YOU as the claim
requires (and no trigger fires). -/
theorem C7_cex :
    (on_begin initTranscriptState "session-1").current_speaker = "other" ∧
    (on_turn (on_begin initTranscriptState "session-1") ⟨"", true⟩).1.current_speaker =
      "other" ∧
    (on_turn (on_begin initTranscriptState "session-1") ⟨"", true⟩).2 = [] := by
  exact ⟨rfl, by decide, by decide⟩

/-- `_write_json_file` always writes the two-key speaker object. -/
theorem write_json_file_shape (st : TranscriptState) :
    isSpeakerObj (write_json_file st).persisted_file :=
  ⟨st.transcription_data.you, st.transcription_data.other, rfl⟩

/-- `_handle_end_of_turn` either leaves the persisted file alone or rewrites
it in the speaker-object shape. -/
theorem handle_end_of_turn_shape (st : TranscriptState) (t : String)
    (h : isSpeakerObj st.persisted_file) :
    isSpeakerObj (handle_end_of_turn st t).1.persisted_file := by
  unfold handle_end_of_turn clear_current_transcript
  split
  · exact h
  · split
    · exact write_json_file_shape _
    · exact h

/-- `_update_transcription` either leaves the persisted file alone (the skip
branch) or rewrites it in the speaker-object shape. -/
theorem update_transcription_shape (st : TranscriptState) (t : String) (eot : Bool)
    (h : isSpeakerObj st.persisted_file) :
    isSpeakerObj (update_transcription st t eot).persisted_file := by
  simp only [update_transcription]
  split
  · split
    · exact h
    · exact h
  · split
    · exact write_json_file_shape _
    · exact write_json_file_shape _

/-- `on_turn` preserves the speaker-object shape of the persisted file. -/
theorem on_turn_shape (st : TranscriptState) (e : TurnEvent)
    (h : isSpeakerObj st.persisted_file) :
    isSpeakerObj (on_turn st e).1.persisted_file := by
  unfold on_turn
  apply update_transcription_shape
  split
  · exact handle_end_of_turn_shape _ _ h
  · exact h

/-- The speaker-object shape is preserved along any event run. -/
theorem runTurns_shape (evs : List TurnEvent) :
    ∀ st : TranscriptState, isSpeakerObj st.persisted_file →
      isSpeakerObj (runTurns st evs).1.persisted_file := by
  induction evs with
  | nil => exact fun _ h => h
  | cons e es ih => exact fun st h => ih (on_turn st e).1 (on_turn_shape st e h)

/-- C3 (amended): after session begin and any sequence of turn events, the
persisted transcript file holds a JSON object with exactly the keys `you` and
`other` mapping to the accumulated speaker texts — not an array of one-key
objects per finalized turn — and it is replaced wholesale on every write. -/
theorem C3_thm (sid : String) (evs : List TurnEvent) :
    isSpeakerObj ((runTurns (on_begin initTranscriptState sid) evs).1.persisted_file) :=
  runTurns_shape evs _ (write_json_file_shape _)

/-- C3 counterexample: at a session boundary the persisted file is the
two-key object with empty texts; in particular it is not a JSON array. -/
theorem C3_cex :
    (on_begin initTranscriptState "session-1").persisted_file =
      JsonVal.obj [("you", JsonVal.str ""), ("other", JsonVal.str "")] ∧
    (on_begin initTranscriptState "session-1").persisted_file.isArr = false :=
  ⟨rfl, rfl⟩

/-- A single end-of-turn event processed with no classification data: no
trigger, the speaker stays OTHER, and the text is appended to OTHER's
finalized transcript. -/
theorem on_turn_eot_none (st : TranscriptState) (t : String)
    (hl : st.last_speaker_was_user = none)
    (hs : st.current_speaker = "other")
    (hk : st.skip_next_other_update = false) :
    (on_turn st ⟨t, true⟩).2 = [] ∧
    (on_turn st ⟨t, true⟩).1.current_speaker = "other" ∧
    (on_turn st ⟨t, true⟩).1.finalized_text.other =
      joinText st.finalized_text.other t ∧
    (on_turn st ⟨t, true⟩).1.last_speaker_was_user = none ∧
    (on_turn st ⟨t, true⟩).1.skip_next_other_update = false ∧
    (on_turn st ⟨t, true⟩).1.is_active = st.is_active := by
  unfold on_turn handle_end_of_turn update_transcription get_actual_speaker
  simp [hl, hs, hk, write_json_file, SpeakerMap.get, SpeakerMap.set]

/-- Every end-of-turn event of a classification-free run lands on OTHER's
finalized transcript; the speaker never leaves OTHER and nothing triggers. -/
theorem runTurns_eot_none (ts : List String) :
    ∀ st : TranscriptState,
      st.last_speaker_was_user = none → st.current_speaker = "other" →
      st.skip_next_other_update = false →
      ((runTurns st (ts.map fun t => ⟨t, true⟩)).2 = [] ∧
       (runTurns st (ts.map fun t => ⟨t, true⟩)).1.current_speaker = "other" ∧
       (runTurns st (ts.map fun t => ⟨t, true⟩)).1.finalized_text.other =
         ts.foldl joinText st.finalized_text.other ∧
       (runTurns st (ts.map fun t => ⟨t, true⟩)).1.is_active = st.is_active) := by
  induction ts with
  | nil =>
    intro st _ h2 _
    exact ⟨rfl, h2, rfl, rfl⟩
  | cons t ts ih =>
    intro st h1 h2 h3
    obtain ⟨e1, e2, e3, e4, e5, e6⟩ := on_turn_eot_none st t h1 h2 h3
    obtain ⟨r1, r2, r3, r4⟩ := ih (on_turn st ⟨t, true⟩).1 e4 e2 e5
    refine ⟨?_, r2, ?_, ?_⟩
    · show (on_turn st ⟨t, true⟩).2 ++
        (runTurns (on_turn st ⟨t, true⟩).1 (ts.map fun x => ⟨x, true⟩)).2 = []
      rw [e1, r1]
      rfl
    · show (runTurns (on_turn st ⟨t, true⟩).1
        (ts.map fun x => ⟨x, true⟩)).1.finalized_text.other = _
      rw [r3, e3]
      rfl
    · show (runTurns (on_turn st ⟨t, true⟩).1
        (ts.map fun x => ⟨x, true⟩)).1.is_active = st.is_active
      rw [r4, e6]

/-- C1 (amended): session begin sets session=ACTIVE, sets the current speaker
to the fixed initial label OTHER (not YOU), and persists the cleared two-key
transcription object; without classification data the engine then acts on
every end-of-turn event — four end-of-turn events append all four texts to
OTHER's finalized transcript, the speaker never alternates, and no record
list of per-turn entries is produced. -/
theorem C1_thm (sid t1 t2 t3 t4 : String) (h1 : t1 ≠ "") :
    (on_begin initTranscriptState sid).is_active = true ∧
    (on_begin initTranscriptState sid).current_speaker = "other" ∧
    (on_begin initTranscriptState sid).persisted_file =
      JsonVal.obj [("you", JsonVal.str ""), ("other", JsonVal.str "")] ∧
    (runTurns (on_begin initTranscriptState sid)
        [⟨t1, true⟩, ⟨t2, true⟩, ⟨t3, true⟩, ⟨t4, true⟩]).2 = [] ∧
    (runTurns (on_begin initTranscriptState sid)
        [⟨t1, true⟩, ⟨t2, true⟩, ⟨t3, true⟩, ⟨t4, true⟩]).1.current_speaker =
      "other" ∧
    (runTurns (on_begin initTranscriptState sid)
        [⟨t1, true⟩, ⟨t2, true⟩, ⟨t3, true⟩, ⟨t4, true⟩]).1.finalized_text.other =
      t1 ++ " " ++ t2 ++ " " ++ t3 ++ " " ++ t4 := by
  obtain ⟨r1, r2, r3, _⟩ :=
    runTurns_eot_none [t1, t2, t3, t4] (on_begin initTranscriptState sid) rfl rfl rfl
  have r3' : (runTurns (on_begin initTranscriptState sid)
      [⟨t1, true⟩, ⟨t2, true⟩, ⟨t3, true⟩, ⟨t4, true⟩]).1.finalized_text.other =
      List.foldl joinText "" [t1, t2, t3, t4] := r3
  refine ⟨rfl, rfl, rfl, r1, r2, ?_⟩
  rw [r3']
  have j1 : joinText "" t1 = t1 := by simp [joinText]
  have j2 : joinText t1 t2 = t1 ++ " " ++ t2 := by simp [joinText, h1]
  have j3 : joinText (t1 ++ " " ++ t2) t3 = t1 ++ " " ++ t2 ++ " " ++ t3 := by
    simp [joinText, append_space_ne]
  have j4 : joinText (t1 ++ " " ++ t2 ++ " " ++ t3) t4 =
      t1 ++ " " ++ t2 ++ " " ++ t3 ++ " " ++ t4 := by
    simp [joinText, append_space_ne]
  show joinText (joinText (joinText (joinText "" t1) t2) t3) t4 = _
  rw [j1, j2, j3, j4]

/-- Witness for C1 (amended) on four concrete end-of-turn events. -/
theorem C1_witness :
    ("a" : String) ≠ "" ∧
    ((on_begin initTranscriptState "s").is_active = true ∧
      (on_begin initTranscriptState "s").current_speaker = "other" ∧
      (on_begin initTranscriptState "s").persisted_file =
        JsonVal.obj [("you", JsonVal.str ""), ("other", JsonVal.str "")] ∧
      (runTurns (on_begin initTranscriptState "s")
          [⟨"a", true⟩, ⟨"b", true⟩, ⟨"c", true⟩, ⟨"d", true⟩]).2 = [] ∧
      (runTurns (on_begin initTranscriptState "s")
          [⟨"a", true⟩, ⟨"b", true⟩, ⟨"c", true⟩, ⟨"d", true⟩]).1.current_speaker =
        "other" ∧
      (runTurns (on_begin initTranscriptState "s")
          [⟨"a", true⟩, ⟨"b", true⟩, ⟨"c", true⟩,
            ⟨"d", true⟩]).1.finalized_text.other =
        "a" ++ " " ++ "b" ++ " " ++ "c" ++ " " ++ "d") :=
  ⟨by decide, C1_thm "s" "a" "b" "c" "d" (by decide)⟩

/-- C1 counterexample: session begin sets the current speaker to `other`,
not to the claimed fixed initial label YOU. -/
theorem C1_cex :
    ¬ ((on_begin initTranscriptState "session-1").current_speaker = "you") := by
  decide
